import Mathlib

/-!
# AirController gesture pipeline — verification development

A shallow embedding of the gesture-recognition / action-dispatch pipeline
(`engine/motion.py`, `engine/gestures.py`, `engine/actions.py`) together with
theorems about the pipeline's specified behaviour.

Modelling conventions:
* Python floats are embedded as exact rationals (`ℚ`); millisecond timestamps
  are integers (`ℤ`), wall-clock seconds are `ℚ`.
* Fallible code (Python `IndexError` on out-of-range landmark access) is
  embedded in the `Option` monad: `none` models a raised exception.
* `math.sqrt` has no exact counterpart on `ℚ`, so the motion estimator is
  parametrized by the square-root routine `sqrtQ : ℚ → ℚ`; every theorem below
  holds for an arbitrary `sqrtQ`.  The square root only ever feeds the
  `speed` / `acceleration_magnitude` scalars, never a control-flow decision.
* Hand-side labels (`"LEFT"`, `"RIGHT"`, `f"HAND_{n}"`, or any other string)
  are only ever compared for equality in the source, so they are embedded as
  the tag type `Side`; `Side.HAND n` stands for the string `"HAND_" ++ repr n`
  (distinct `n` give distinct strings) and `Side.OTHER s` for any other label.
* Python dictionaries keyed by sides (motion history, gesture history,
  detection output) are embedded as total functions into `Option`/`List`,
  which matches `dict.get` with its default.
-/

namespace AirController

/-- Hand identity label (`engine/types.py` uses the strings `"LEFT"`,
`"RIGHT"`, the synthetic `f"HAND_{n}"` of `motion.py`, or an arbitrary
tracker-produced label). -/
inductive Side where
  | LEFT
  | RIGHT
  | HAND (n : ℕ)
  | OTHER (tag : String)
  deriving DecidableEq

/-- One raw landmark point (the tracker's normalized 3-D points). -/
structure Landmark where
  x : ℚ
  y : ℚ
  z : ℚ
  deriving DecidableEq

/-- Embeds `engine/types.py` `Vec3`. -/
structure Vec3 where
  x : ℚ
  y : ℚ
  z : ℚ
  deriving DecidableEq

/-- Embeds `engine/types.py` `HandObservation`: raw tracker output for one hand. -/
structure HandObservation where
  side : Side
  landmarks : List Landmark
  confidence : ℚ
  deriving DecidableEq

/-- Embeds `engine/types.py` `HandState`: smoothed motion state for one hand. -/
structure HandState where
  side : Side
  confidence : ℚ
  landmarks : List Landmark
  position : Vec3
  velocity : Vec3
  acceleration : Vec3
  speed : ℚ
  acceleration_magnitude : ℚ
  depth : ℚ
  timestamp_ms : ℤ
  deriving DecidableEq

/-- Embeds `engine/types.py` `FrameState`. -/
structure FrameState where
  hands : List HandState
  right_hand : Option HandState
  left_hand : Option HandState
  deriving DecidableEq

/-! ## engine/motion.py -/

/-- Embeds `motion.py` `_History`: the estimator's private per-side record. -/
structure History where
  position : Vec3
  velocity : Vec3
  acceleration : Vec3
  timestamp_ms : ℤ
  deriving DecidableEq

/-- Embeds `motion.py` `_lerp`. -/
def _lerp (a b alpha : ℚ) : ℚ := a * (1 - alpha) + b * alpha

/-- Embeds `motion.py` `_vec_lerp`. -/
def _vec_lerp (a b : Vec3) (alpha : ℚ) : Vec3 :=
  ⟨_lerp a.x b.x alpha, _lerp a.y b.y alpha, _lerp a.z b.z alpha⟩

/-- Embeds `motion.py` `_vec_sub`. -/
def _vec_sub (a b : Vec3) : Vec3 := ⟨a.x - b.x, a.y - b.y, a.z - b.z⟩

/-- Embeds `motion.py` `_vec_div` (with its explicit division-by-zero guard). -/
def _vec_div (v : Vec3) (scalar : ℚ) : Vec3 :=
  if scalar = 0 then ⟨0, 0, 0⟩ else ⟨v.x / scalar, v.y / scalar, v.z / scalar⟩

/-- The radicand of `motion.py` `_vec_mag`; the source returns
`math.sqrt` of this value. -/
def vecMagSq (v : Vec3) : ℚ := v.x * v.x + v.y * v.y + v.z * v.z

/-- Embeds `motion.py` `MotionEstimator.__init__` state: configuration plus the
private per-side history map (a total function, `none` = key absent). -/
structure MotionEstimator where
  smoothing_alpha : ℚ
  max_stale_ms : ℤ
  history : Side → Option History

/-- Embeds `motion.py` `MotionEstimator._position_from_landmarks`:
`landmarks[8]` raises `IndexError` when fewer than 9 points are present,
modelled by `none`. -/
def _position_from_landmarks (landmarks : List Landmark) : Option Vec3 :=
  (landmarks[8]?).map fun tip => ⟨tip.x, tip.y, tip.z⟩

/-- The `for obs in observations` loop body of `MotionEstimator.update`,
threading the mutable history map and the accumulating `hands` list. -/
def updateGo (alpha : ℚ) (sqrtQ : ℚ → ℚ) (now : ℤ)
    (hist : Side → Option History) (hands : List HandState) :
    List HandObservation → Option ((Side → Option History) × List HandState)
  | [] => some (hist, hands)
  | obs :: rest =>
    match _position_from_landmarks obs.landmarks with
    | none => none
    | some current =>
      let side := if obs.side = Side.LEFT ∨ obs.side = Side.RIGHT then obs.side
                  else Side.HAND hands.length
      let (pos, vel, acc) :=
        match hist side with
        | none => (current, (⟨0, 0, 0⟩ : Vec3), (⟨0, 0, 0⟩ : Vec3))
        | some prev =>
            let dt := max (((now - prev.timestamp_ms : ℤ) : ℚ) / 1000) (1 / 1000)
            let pos := _vec_lerp prev.position current alpha
            let rawVel := _vec_div (_vec_sub pos prev.position) dt
            let vel := _vec_lerp prev.velocity rawVel alpha
            let rawAcc := _vec_div (_vec_sub vel prev.velocity) dt
            let acc := _vec_lerp prev.acceleration rawAcc alpha
            (pos, vel, acc)
      let speed := sqrtQ (vecMagSq vel)
      let accMag := sqrtQ (vecMagSq acc)
      let depth := -pos.z
      let hand : HandState :=
        ⟨side, obs.confidence, obs.landmarks, pos, vel, acc, speed, accMag, depth, now⟩
      let hist' : Side → Option History :=
        fun s => if s = side then some ⟨pos, vel, acc, now⟩ else hist s
      updateGo alpha sqrtQ now hist' (hands ++ [hand]) rest

/-- The stale-entry removal at the top of `MotionEstimator.update`
("Remove stale history entries", lines 64-71): any side whose entry is
older than `max_stale_ms` is dropped. -/
def purgeStale (est : MotionEstimator) (now : ℤ) : Side → Option History := fun s =>
  match est.history s with
  | some h => if now - h.timestamp_ms > est.max_stale_ms then none else some h
  | none => none

/-- Embeds `motion.py` `MotionEstimator.update`.  Returns the new estimator
state (the source mutates `self._history`) together with the `FrameState`;
`none` models a raised `IndexError`. -/
def update (sqrtQ : ℚ → ℚ) (est : MotionEstimator)
    (observations : List HandObservation) (timestamp_ms : ℤ) :
    Option (MotionEstimator × FrameState) :=
  let now := timestamp_ms
  match updateGo est.smoothing_alpha sqrtQ now (purgeStale est now) [] observations with
  | none => none
  | some (hist', hands) =>
      let right := hands.find? fun h => h.side = Side.RIGHT
      let left := hands.find? fun h => h.side = Side.LEFT
      some (⟨est.smoothing_alpha, est.max_stale_ms, hist'⟩, ⟨hands, right, left⟩)

/-! ## engine/gestures.py -/

/-- Embeds `gestures.py` `GestureCandidate`. -/
structure GestureCandidate where
  name : String
  confidence : ℚ
  source : String
  deriving DecidableEq

/-- Square of `gestures.py` `_distance` (which returns
`((p1.x-p2.x)^2 + (p1.y-p2.y)^2) ** 0.5`).  The source only ever compares the
distance against a non-negative threshold, which is equivalent to comparing
this square against the threshold's square. -/
def _distance_sq (p1 p2 : ℚ × ℚ) : ℚ :=
  (p1.1 - p2.1) * (p1.1 - p2.1) + (p1.2 - p2.2) * (p1.2 - p2.2)

/-- Embeds `gestures.py` `_is_finger_up`; `none` models an `IndexError`. -/
def _is_finger_up (lm : List Landmark) (tip_id pip_id : ℕ) : Option Bool := do
  let tip ← lm[tip_id]?
  let pip ← lm[pip_id]?
  pure (decide (tip.y < pip.y))

/-- Embeds `gestures.py` `detect_simple_gesture`.  The outer `Option` models a raised
`IndexError`; the inner one is the source's `PINCH`/…/`None` result.  Landmark
reads are sequenced exactly as in the source (so e.g. a 13-landmark pinch
input returns `PINCH` without ever touching landmark 16). -/
def detect_simple_gesture (lm : List Landmark) : Option (Option String) := do
  let thumb_tip ← lm[4]?
  let index_tip ← lm[8]?
  let index_up ← _is_finger_up lm 8 6
  let middle_up ← _is_finger_up lm 12 10
  if _distance_sq (thumb_tip.x, thumb_tip.y) (index_tip.x, index_tip.y) < (5/100) * (5/100) then
    return some "PINCH"
  let ring_up ← _is_finger_up lm 16 14
  let pinky_up ← _is_finger_up lm 20 18
  if index_up && middle_up && ring_up && pinky_up then
    return some "OPEN_PALM"
  if index_up && middle_up then
    return some "TWO_UP"
  let wrist ← lm[0]?
  let i8 ← lm[8]?
  let i12 ← lm[12]?
  if !index_up && !middle_up then
    if wrist.y < i8.y ∧ wrist.y < i12.y then
      return some "TWO_DOWN"
  return none

/-- Embeds `gestures.py` `_candidate`: clamps the confidence into `[0, 1]`. -/
def _candidate (name : String) (confidence : ℚ) (source : String) : GestureCandidate :=
  ⟨name, max 0 (min confidence 1), source⟩

/-- Embeds `gestures.py` `GestureRecognizer` state: configuration plus the per-side
rolling history (a total function; the absent-key default is `[]`, matching
the source's lazily created deques). -/
structure GestureRecognizer where
  history_size : ℕ
  history : Side → List HandState
  swipe_dx_threshold : ℚ
  swipe_dy_threshold : ℚ
  push_pull_dz_threshold : ℚ
  min_avg_speed : ℚ

/-- One `deque(maxlen=size).append(hand)` on the hand's own side: append on
the right, evicting from the left beyond `size` entries. -/
def pushHistory (size : ℕ) (h : Side → List HandState) (hand : HandState) :
    Side → List HandState :=
  fun s =>
    if s = hand.side then
      let l := h hand.side ++ [hand]
      if size < l.length then l.drop (l.length - size) else l
    else h s

/-- Embeds `gestures.py` `GestureRecognizer._update_history`. -/
def _update_history (g : GestureRecognizer) (fs : FrameState) : GestureRecognizer :=
  { g with history := fs.hands.foldl (pushHistory g.history_size) g.history }

/-- Embeds `gestures.py` `GestureRecognizer._detect_static_for_hand`; the outer
`Option` models a raised `IndexError` from `detect_simple_gesture`. -/
def _detect_static_for_hand (hand : HandState) : Option (Option GestureCandidate) :=
  match detect_simple_gesture hand.landmarks with
  | none => none
  | some none => some none
  | some (some name) => some (some (_candidate name (82/100) "STATIC"))

/-- Embeds `gestures.py` `GestureRecognizer._detect_dynamic_for_hand`. -/
def _detect_dynamic_for_hand (g : GestureRecognizer) (side : Side) :
    Option GestureCandidate :=
  let points := g.history side
  if points.length < 6 then none
  else match points.head?, points.getLast? with
  | some first, some last =>
    let dx := last.position.x - first.position.x
    let dy := last.position.y - first.position.y
    let dz := last.position.z - first.position.z
    let avg_speed := (points.map HandState.speed).sum / (points.length : ℚ)
    let duration_s := max (((last.timestamp_ms - first.timestamp_ms : ℤ) : ℚ) / 1000) (1/1000)
    -- "Require enough temporal energy so small jitter is ignored."
    if avg_speed < g.min_avg_speed ∧ duration_s < 12/100 then none
    else
      let abs_dx := |dx|
      let abs_dy := |dy|
      let abs_dz := |dz|
      if abs_dx > g.swipe_dx_threshold ∧ abs_dx > abs_dy then
        let conf := min 1 (abs_dx / g.swipe_dx_threshold) * (7/10) + min (3/10) (avg_speed / 3)
        some (_candidate (if dx > 0 then "SWIPE_RIGHT" else "SWIPE_LEFT") conf "DYNAMIC")
      else if abs_dy > g.swipe_dy_threshold ∧ abs_dy > abs_dx then
        let conf := min 1 (abs_dy / g.swipe_dy_threshold) * (7/10) + min (3/10) (avg_speed / 3)
        some (_candidate (if dy > 0 then "SWIPE_DOWN" else "SWIPE_UP") conf "DYNAMIC")
      else if abs_dz > g.push_pull_dz_threshold then
        let conf := min 1 (abs_dz / g.push_pull_dz_threshold) * (7/10) + min (3/10) (avg_speed / 3)
        some (_candidate (if dz > 0 then "PUSH" else "PULL") conf "DYNAMIC")
      else none
  | _, _ => none

/-- The per-hand arbitration inlined in the loop of
`GestureRecognizer.detect_for_frame` (dynamic wins at confidence ≥ 0.86, else
static, else the sub-threshold dynamic, else nothing). -/
def chooseCandidate (dynamicCandidate staticCandidate : Option GestureCandidate) :
    Option GestureCandidate :=
  if dynamicCandidate.any (fun d => decide ((86:ℚ)/100 ≤ d.confidence)) then dynamicCandidate
  else if staticCandidate.isSome then staticCandidate
  else dynamicCandidate

/-- The `for hand in frame_state.hands` loop of `detect_for_frame`, threading
the output dictionary (a total function into `Option`). -/
def detectLoop (g : GestureRecognizer) (out : Side → Option GestureCandidate) :
    List HandState → Option (Side → Option GestureCandidate)
  | [] => some out
  | hand :: rest =>
      match _detect_static_for_hand hand with
      | none => none
      | some staticCandidate =>
          let dynamicCandidate := _detect_dynamic_for_hand g hand.side
          let out' := match chooseCandidate dynamicCandidate staticCandidate with
            | some c => fun s => if s = hand.side then some c else out s
            | none => out
          detectLoop g out' rest

/-- Embeds `gestures.py` `GestureRecognizer.detect_for_frame`.  Returns the updated
recognizer (the source mutates `self.history`) and the side-indexed output
map; `none` models a raised `IndexError`. -/
def detect_for_frame (g : GestureRecognizer) (fs : FrameState) :
    Option (GestureRecognizer × (Side → Option GestureCandidate)) :=
  let g' := _update_history g fs
  match detectLoop g' (fun _ => none) fs.hands with
  | none => none
  | some out => some (g', out)

/-! ## engine/actions.py

The dispatcher's side effects (`pyautogui` calls, `webbrowser.open`,
`time.sleep`) live behind the OS boundary; they are recorded as an `Effect`
list.  Wall-clock time (`time.time()`) is passed in as the `now` argument.
Configuration values are modelled after parsing: a `dict.get(key, default)`
on a rule or action field becomes an `Option` field read with `getD`.
-/

/-- Embeds `gestures.py` `GestureState` (timing for the built-in fallback mode). -/
structure GestureState where
  last_click_time : ℚ
  last_scroll_time : ℚ
  deriving DecidableEq

/-- One step of a configured `sequence` action (`actions.py`
`_execute_inline_step`); `other` is an unrecognized `type` tag. -/
inductive ActionStep where
  | sleep (seconds : ℚ)
  | key (k : String)
  | hotkey (keys : List String)
  | type_text (text : String)
  | open_url (url : String)
  | other (tag : String)
  deriving DecidableEq

/-- A configured action entry (`actions.py` `_execute_action`); `other` is an
unrecognized `type` tag, which the source silently ignores. -/
inductive ActionSpec where
  | mouse_click (button : String)
  | scroll (amount : ℤ)
  | key (k : String)
  | hotkey (keys : List String)
  | open_url (url : String)
  | type_text (text : String)
  | sequence (steps : List ActionStep)
  | other (tag : String)
  deriving DecidableEq

/-- An externally executed side effect (the `pyautogui`/`webbrowser`/`time`
boundary calls of `actions.py`). -/
inductive Effect where
  | click (button : String)
  | scroll (amount : ℤ)
  | press (k : String)
  | hotkey (keys : List String)
  | openUrl (url : String)
  | typeText (text : String)
  | sleep (seconds : ℚ)
  deriving DecidableEq

/-- Embeds `actions.py` `ActionEngine._execute_inline_step`. -/
def _execute_inline_step : ActionStep → List Effect
  | .sleep seconds => [.sleep seconds]
  | .key k => [.press k]
  | .hotkey keys => if keys = [] then [] else [.hotkey keys]
  | .type_text text => [.typeText text]
  | .open_url url => if url = "" then [] else [.openUrl url]
  | .other _ => []

/-- The debounce key `f"{side}:{required_name}:{action_id}"` of
`ActionEngine.apply`, kept as the triple it is built from (`required_name`
and `action_id` are `dict.get` results, hence optional). -/
abbrev MappingKey := Side × Option String × Option String

/-- One entry of the configured `mappings` list; every field is optional,
matching the source's `mapping.get(...)` reads. -/
structure MappingRule where
  side : Option Side
  gesture : Option String
  action : Option String
  min_confidence : Option ℚ
  priority : Option ℤ
  cooldown_s : Option ℚ
  deriving DecidableEq

/-- The tuple `(priority, cand.confidence, mapping_key, side, cand, action_id)`
appended to `candidates` in `ActionEngine.apply`. -/
structure EligibleRule where
  priority : ℤ
  confidence : ℚ
  mappingKey : MappingKey
  side : Side
  cand : GestureCandidate
  actionId : Option String
  deriving DecidableEq

/-- Embeds `actions.py` `ActionEngine` state (the cursor-smoothing fields and screen
size feed only `move_cursor_from_hand`, which no examined behaviour touches,
and are omitted).  `actions` is the parsed `actions{}` table as an association
list (a JSON object; looked up with `List.lookup`), `last_triggered` the
debounce map with the source's `get(key, 0.0)` default built in. -/
structure ActionEngine where
  click_cooldown : ℚ
  scroll_cooldown : ℚ
  scroll_amount : ℤ
  gesture_state : GestureState
  last_dynamic_time : ℚ
  dynamic_cooldown : ℚ
  mappings : List MappingRule
  actions : List (String × ActionSpec)
  last_triggered : MappingKey → ℚ

/-- Embeds `actions.py` `ActionEngine._execute_action`: a missing id (including the
`None` id of a rule without an `action` field) or an unrecognized `type` tag
falls through to a silent no-op. -/
def _execute_action (actions : List (String × ActionSpec)) (action_id : Option String) :
    List Effect :=
  match action_id.bind (fun a => actions.lookup a) with
  | none => []
  | some (.mouse_click button) => [.click button]
  | some (.scroll amount) => [.scroll amount]
  | some (.key k) => [.press k]
  | some (.hotkey keys) => if keys = [] then [] else [.hotkey keys]
  | some (.open_url url) => if url = "" then [] else [.openUrl url]
  | some (.type_text text) => [.typeText text]
  | some (.sequence steps) => steps.flatMap _execute_inline_step
  | some (.other _) => []

/-- The per-rule filter in the `for mapping in self.mappings` loop of
`ActionEngine.apply`: gesture-name match, confidence gate, then the cooldown
gate; `none` means the rule is skipped. -/
def ruleCandidate (eng : ActionEngine) (gestures : Side → Option GestureCandidate)
    (now : ℚ) (m : MappingRule) : Option EligibleRule :=
  let side := m.side.getD Side.RIGHT
  let required_name := m.gesture
  let action_id := m.action
  let min_conf := m.min_confidence.getD (80/100)
  let priority := m.priority.getD 0
  let cooldown := m.cooldown_s.getD eng.dynamic_cooldown
  match gestures side with
  | none => none
  | some cand =>
      if some cand.name ≠ required_name ∨ cand.confidence < min_conf then none
      else
        let mapping_key : MappingKey := (side, required_name, action_id)
        if now - eng.last_triggered mapping_key < cooldown then none
        else some ⟨priority, cand.confidence, mapping_key, side, cand, action_id⟩

/-- The comparison realizing `candidates.sort(key=(priority, confidence),
reverse=True)`: `ruleLe a b` says `a` may precede `b` in the descending
order, i.e. `b`'s key is lexicographically ≤ `a`'s.  CPython's sort is
stable also under `reverse=True`, as is `List.mergeSort`. -/
def ruleLe (a b : EligibleRule) : Bool :=
  decide (b.priority < a.priority ∨ (b.priority = a.priority ∧ b.confidence ≤ a.confidence))

/-- The return value of `ActionEngine.apply`, one constructor per distinct
string template the source returns (`dispatched` models
`f"{side} {cand.name} ({cand.confidence:.2f}) -> {action_id}"`). -/
inductive ApplyResult where
  | dispatched (side : Side) (gesture : String) (confidence : ℚ) (actionId : Option String)
  | trackingProfile
  | tracking
  | rightPinchClick (confidence : ℚ)
  | leftPinchClick (confidence : ℚ)
  | rightTwoUpScroll (confidence : ℚ)
  | rightTwoDownScroll (confidence : ℚ)
  | openPalmNoAction
  | rightDynamic (gesture : String) (confidence : ℚ)
  deriving DecidableEq

/-- The built-in fallback decision table of `ActionEngine.apply` (the code
after `if self.mappings and self.actions:`). -/
def applyFallback (eng : ActionEngine) (right left : Option GestureCandidate)
    (now : ℚ) : ActionEngine × ApplyResult × List Effect :=
  let right_name := right.map GestureCandidate.name
  let left_name := left.map GestureCandidate.name
  if right_name = some "PINCH" then
    match right with
    | some r =>
        if eng.click_cooldown ≤ now - eng.gesture_state.last_click_time then
          ({ eng with gesture_state := ⟨now, eng.gesture_state.last_scroll_time⟩ },
            .rightPinchClick r.confidence, [.click "left"])
        else (eng, .rightPinchClick r.confidence, [])
    | none => (eng, .tracking, [])  -- unreachable: right_name forces right present
  else if left_name = some "PINCH" then
    match left with
    | some l =>
        if eng.click_cooldown ≤ now - eng.gesture_state.last_click_time then
          ({ eng with gesture_state := ⟨now, eng.gesture_state.last_scroll_time⟩ },
            .leftPinchClick l.confidence, [.click "right"])
        else (eng, .leftPinchClick l.confidence, [])
    | none => (eng, .tracking, [])  -- unreachable
  else if right_name = some "TWO_UP" then
    match right with
    | some r =>
        if eng.scroll_cooldown ≤ now - eng.gesture_state.last_scroll_time then
          ({ eng with gesture_state := ⟨eng.gesture_state.last_click_time, now⟩ },
            .rightTwoUpScroll r.confidence, [.scroll eng.scroll_amount])
        else (eng, .rightTwoUpScroll r.confidence, [])
    | none => (eng, .tracking, [])  -- unreachable
  else if right_name = some "TWO_DOWN" then
    match right with
    | some r =>
        if eng.scroll_cooldown ≤ now - eng.gesture_state.last_scroll_time then
          ({ eng with gesture_state := ⟨eng.gesture_state.last_click_time, now⟩ },
            .rightTwoDownScroll r.confidence, [.scroll (-eng.scroll_amount)])
        else (eng, .rightTwoDownScroll r.confidence, [])
    | none => (eng, .tracking, [])  -- unreachable
  else if right_name = some "OPEN_PALM" ∨ left_name = some "OPEN_PALM" then
    (eng, .openPalmNoAction, [])
  else if right_name ∈ ([some "SWIPE_LEFT", some "SWIPE_RIGHT", some "SWIPE_UP",
      some "SWIPE_DOWN", some "PUSH", some "PULL"] : List (Option String)) then
    match right with
    | some r =>
        if (30:ℚ)/100 ≤ now - eng.last_dynamic_time then
          let eff : List Effect :=
            if r.name = "SWIPE_LEFT" then [.press "left"]
            else if r.name = "SWIPE_RIGHT" then [.press "right"]
            else if r.name = "SWIPE_UP" then [.press "pageup"]
            else if r.name = "SWIPE_DOWN" then [.press "pagedown"]
            else if r.name = "PUSH" then [.hotkey ["ctrl", "+"]]
            else if r.name = "PULL" then [.hotkey ["ctrl", "-"]]
            else []
          ({ eng with last_dynamic_time := now }, .rightDynamic r.name r.confidence, eff)
        else (eng, .rightDynamic r.name r.confidence, [])
    | none => (eng, .tracking, [])  -- unreachable
  else (eng, .tracking, [])

/-- Embeds `actions.py` `ActionEngine.apply`.  Returns the new engine state (the
source mutates `self`), the decision trace, and the emitted effects.  `now`
is the source's `time.time()` read. -/
def apply (eng : ActionEngine) (gestures : Side → Option GestureCandidate)
    (now : ℚ) : ActionEngine × ApplyResult × List Effect :=
  let right := gestures Side.RIGHT
  let left := gestures Side.LEFT
  if eng.mappings ≠ [] ∧ eng.actions ≠ [] then
    let candidates := eng.mappings.filterMap (ruleCandidate eng gestures now)
    -- The source tests `if candidates:` before sorting; matching on the
    -- sorted list is the same test, since mergeSort preserves emptiness.
    match (candidates.mergeSort ruleLe) with
    | [] => (eng, .trackingProfile, [])
    | top :: _ =>
        let effects := _execute_action eng.actions top.actionId
        ({ eng with last_triggered :=
            fun k => if k = top.mappingKey then now else eng.last_triggered k },
          .dispatched top.side top.cand.name top.cand.confidence top.actionId, effects)
  else applyFallback eng right left now

/-! ## Specification-side definitions

`keyLE` and `firstMax` are written from the specification's words for the
dispatcher's selection rule — "select the winner by descending
`(priority, confidence)` — priority is the primary sort key, confidence the
tie-break; ties in both are resolved by configuration order (first rule
wins)" — to be compared against the source's stable descending sort. -/

/-- Lexicographic order on the `(priority, confidence)` sort key. -/
def keyLE (a b : EligibleRule) : Prop :=
  a.priority < b.priority ∨ (a.priority = b.priority ∧ a.confidence ≤ b.confidence)

instance : DecidableRel keyLE := fun a b =>
  inferInstanceAs (Decidable (a.priority < b.priority ∨
    (a.priority = b.priority ∧ a.confidence ≤ b.confidence)))

/-- The first element of the list achieving the lexicographic maximum of the
`(priority, confidence)` key: an earlier element is displaced only by a
strictly greater key. -/
def firstMax : List EligibleRule → Option EligibleRule
  | [] => none
  | a :: l =>
      match firstMax l with
      | none => some a
      | some m => if keyLE m a then some a else some m

/-! ## Concrete fixtures for the witnesses and counterexamples -/

/-- Stand-in for `math.sqrt` in concrete instances (no examined value
depends on the square root, so the identity serves). -/
def sqrtId : ℚ → ℚ := fun q => q

/-- A `MotionEstimator()` with the source's default configuration and an
empty history. -/
def est0 : MotionEstimator := ⟨35/100, 250, fun _ => none⟩

/-- A list of 21 coincident landmarks (a well-formed, maximally pinched hand). -/
def lm21 : List Landmark := List.replicate 21 ⟨1/2, 1/2, 0⟩

def obsRight : HandObservation := ⟨Side.RIGHT, lm21, 1⟩

def obsLeft : HandObservation := ⟨Side.LEFT, lm21, 1⟩

/-- An observation whose landmark sequence is malformed (no points at all). -/
def obsNoLandmarks : HandObservation := ⟨Side.RIGHT, [], 1⟩

/-- An observation whose upstream confidence lies outside `[0, 1]`. -/
def obsOverConfident : HandObservation := ⟨Side.RIGHT, lm21, 3/2⟩

/-- An estimator whose RIGHT history entry (with conspicuous nonzero
velocity/acceleration) is 300 ms old at `t = 300`, beyond the 250 ms
staleness threshold. -/
def estStale : MotionEstimator :=
  ⟨35/100, 250, fun s =>
    if s = Side.RIGHT then some ⟨⟨0, 0, 0⟩, ⟨5, 5, 5⟩, ⟨1, 1, 1⟩, 0⟩ else none⟩

/-- A 21-landmark list satisfying the OPEN_PALM geometry (all four tips above
their pips) and not the PINCH geometry. -/
def palmLm : List Landmark :=
  List.ofFn fun i : Fin 21 =>
    if i.1 = 4 then ⟨1/10, 2/10, 0⟩
    else if i.1 = 8 then ⟨9/10, 2/10, 0⟩
    else if i.1 = 12 ∨ i.1 = 16 ∨ i.1 = 20 then ⟨1/2, 2/10, 0⟩
    else if i.1 = 6 ∨ i.1 = 10 ∨ i.1 = 14 ∨ i.1 = 18 then ⟨1/2, 8/10, 0⟩
    else ⟨1/2, 1/2, 0⟩

/-- A 21-landmark list satisfying both the PINCH geometry (thumb tip on index tip)
and the OPEN_PALM geometry (the contrived input of the claim). -/
def pinchPalmLm : List Landmark :=
  List.ofFn fun i : Fin 21 =>
    if i.1 = 4 ∨ i.1 = 8 ∨ i.1 = 12 ∨ i.1 = 16 ∨ i.1 = 20 then ⟨1/2, 2/10, 0⟩
    else if i.1 = 6 ∨ i.1 = 10 ∨ i.1 = 14 ∨ i.1 = 18 then ⟨1/2, 8/10, 0⟩
    else ⟨1/2, 1/2, 0⟩

def palmHand : HandState :=
  ⟨Side.RIGHT, 1, palmLm, ⟨1/2, 1/2, 0⟩, ⟨0, 0, 0⟩, ⟨0, 0, 0⟩, 0, 0, 0, 0⟩

def palmFrame : FrameState := ⟨[palmHand], some palmHand, none⟩

/-- A `GestureRecognizer()` with the source's default configuration and an
empty history. -/
def gRec0 : GestureRecognizer := ⟨18, fun _ => [], 12/100, 12/100, 45/1000, 8/10⟩

/-- The `i`-th sample of the claim's synthetic swipe window: `x` advances by
0.04 and `y` by 0.002 per 40 ms sample, each sample at speed 1.5; over the
six samples `dx = 0.20`, `dy = 0.01`, duration 0.2 s, average speed 1.5. -/
def swipeSample (i : ℕ) : HandState :=
  ⟨Side.RIGHT, 1, [], ⟨(4:ℚ)/100 * i, (1:ℚ)/500 * i, 0⟩, ⟨0, 0, 0⟩, ⟨0, 0, 0⟩,
    3/2, 0, 0, 40 * i⟩

def swipeWindow : List HandState :=
  [swipeSample 0, swipeSample 1, swipeSample 2, swipeSample 3, swipeSample 4, swipeSample 5]

def swipeRec : GestureRecognizer :=
  ⟨18, fun s => if s = Side.RIGHT then swipeWindow else [], 12/100, 12/100, 45/1000, 8/10⟩

/-- RIGHT shows PINCH at 0.85, LEFT shows OPEN_PALM at 0.99. -/
def gesturesTwoHands : Side → Option GestureCandidate :=
  fun s =>
    if s = Side.RIGHT then some ⟨"PINCH", 85/100, "STATIC"⟩
    else if s = Side.LEFT then some ⟨"OPEN_PALM", 99/100, "STATIC"⟩
    else none

/-- Priority-5 rule on the lower-confidence candidate. -/
def ruleHigh : MappingRule :=
  ⟨some Side.RIGHT, some "PINCH", some "act_high", some (8/10), some 5, some (3/10)⟩

/-- Priority-3 rule on the higher-confidence candidate. -/
def ruleLow : MappingRule :=
  ⟨some Side.LEFT, some "OPEN_PALM", some "act_low", some (8/10), some 3, some (3/10)⟩

def engTwoRules : ActionEngine :=
  ⟨45/100, 20/100, 120, ⟨0, 0⟩, 0, 30/100, [ruleHigh, ruleLow],
    [("act_high", .key "space"), ("act_low", .key "a")], fun _ => 0⟩

/-- RIGHT shows PINCH at 0.90. -/
def gesturesPinch : Side → Option GestureCandidate :=
  fun s => if s = Side.RIGHT then some ⟨"PINCH", 9/10, "STATIC"⟩ else none

/-- A rule with a 0.30 s cooldown whose debounce key last fired at `t = 0`. -/
def ruleCooldown : MappingRule :=
  ⟨some Side.RIGHT, some "PINCH", some "act_k", some (8/10), some 0, some (3/10)⟩

def engCooldown : ActionEngine :=
  ⟨45/100, 20/100, 120, ⟨0, 0⟩, 0, 30/100, [ruleCooldown],
    [("act_k", .key "space")], fun _ => 0⟩

/-- A rule whose action id `"ghost"` has no entry in the loaded actions
table (the table itself is non-empty). -/
def ruleGhost : MappingRule :=
  ⟨some Side.RIGHT, some "PINCH", some "ghost", some (8/10), some 0, some (3/10)⟩

def engGhost : ActionEngine :=
  ⟨45/100, 20/100, 120, ⟨0, 0⟩, 0, 30/100, [ruleGhost],
    [("real", .key "space")], fun _ => 0⟩

/-- The eligible tuple `apply` builds for `ruleHigh` under `gesturesTwoHands`. -/
def eligHigh : EligibleRule :=
  ⟨5, 85/100, (Side.RIGHT, some "PINCH", some "act_high"), Side.RIGHT,
    ⟨"PINCH", 85/100, "STATIC"⟩, some "act_high"⟩

/-- The eligible tuple `apply` builds for `ruleLow` under `gesturesTwoHands`. -/
def eligLow : EligibleRule :=
  ⟨3, 99/100, (Side.LEFT, some "OPEN_PALM", some "act_low"), Side.LEFT,
    ⟨"OPEN_PALM", 99/100, "STATIC"⟩, some "act_low"⟩

/-- The eligible tuple `apply` builds for `ruleCooldown` once its cooldown
has elapsed. -/
def eligCooldown : EligibleRule :=
  ⟨0, 9/10, (Side.RIGHT, some "PINCH", some "act_k"), Side.RIGHT,
    ⟨"PINCH", 9/10, "STATIC"⟩, some "act_k"⟩

/-- The eligible tuple `apply` builds for `ruleGhost`. -/
def eligGhost : EligibleRule :=
  ⟨0, 9/10, (Side.RIGHT, some "PINCH", some "ghost"), Side.RIGHT,
    ⟨"PINCH", 9/10, "STATIC"⟩, some "ghost"⟩

/-- The cold-start HandState `update` emits for `obsRight` at `t = 0`. -/
def handRightCold : HandState :=
  ⟨Side.RIGHT, 1, lm21, ⟨1/2, 1/2, 0⟩, ⟨0, 0, 0⟩, ⟨0, 0, 0⟩, 0, 0, 0, 0⟩

/-- The cold-start HandState `update` emits for `obsLeft` at `t = 0`. -/
def handLeftCold : HandState :=
  ⟨Side.LEFT, 1, lm21, ⟨1/2, 1/2, 0⟩, ⟨0, 0, 0⟩, ⟨0, 0, 0⟩, 0, 0, 0, 0⟩

/-- The static candidate the recognizer emits for `palmFrame`. -/
def palmCandidate : GestureCandidate := _candidate "OPEN_PALM" (82/100) "STATIC"

/-! ## Helper lemmas: motion estimator -/

lemma position_from_landmarks_isSome {landmarks : List Landmark}
    (h : 9 ≤ landmarks.length) :
    ∃ v, _position_from_landmarks landmarks = some v := by
  have h8 : 8 < landmarks.length := by omega
  refine ⟨⟨landmarks[8].x, landmarks[8].y, landmarks[8].z⟩, ?_⟩
  simp [_position_from_landmarks, List.getElem?_eq_getElem h8]

lemma updateGo_isSome (alpha : ℚ) (sqrtQ : ℚ → ℚ) (now : ℤ)
    (l : List HandObservation) :
    ∀ (hist : Side → Option History) (hands : List HandState),
      (∀ o ∈ l, 9 ≤ o.landmarks.length) →
      (updateGo alpha sqrtQ now hist hands l).isSome = true := by
  induction l with
  | nil => intro hist hands _; rfl
  | cons obs rest ih =>
      intro hist hands h
      obtain ⟨v, hv⟩ := position_from_landmarks_isSome (h obs (by simp))
      simp only [updateGo, hv]
      exact ih _ _ fun o ho => h o (by simp [ho])

lemma updateGo_mem_mono (alpha : ℚ) (sqrtQ : ℚ → ℚ) (now : ℤ)
    (l : List HandObservation) :
    ∀ (hist : Side → Option History) (hands : List HandState) hist' hands',
      updateGo alpha sqrtQ now hist hands l = some (hist', hands') →
      ∀ h ∈ hands, h ∈ hands' := by
  induction l with
  | nil =>
      intro hist hands hist' hands' he h hm
      simp only [updateGo, Option.some_inj, Prod.mk.injEq] at he
      exact he.2 ▸ hm
  | cons obs rest ih =>
      intro hist hands hist' hands' he h hm
      cases hv : _position_from_landmarks obs.landmarks with
      | none => simp [updateGo, hv] at he
      | some v =>
          simp only [updateGo, hv] at he
          exact ih _ _ _ _ he h (by simp [hm])

lemma updateGo_produces (alpha : ℚ) (sqrtQ : ℚ → ℚ) (now : ℤ)
    (rest : List HandObservation) (hist : Side → Option History)
    (hands : List HandState) (h : ∀ o ∈ rest, 9 ≤ o.landmarks.length)
    (hand : HandState) (hm : hand ∈ hands) :
    ∃ hist' hands', updateGo alpha sqrtQ now hist hands rest = some (hist', hands') ∧
      hand ∈ hands' := by
  obtain ⟨⟨hist', hands'⟩, hp⟩ :=
    Option.isSome_iff_exists.mp (updateGo_isSome alpha sqrtQ now rest hist hands h)
  exact ⟨hist', hands', hp, updateGo_mem_mono alpha sqrtQ now rest _ _ _ _ hp hand hm⟩

lemma updateGo_cold (alpha : ℚ) (sqrtQ : ℚ → ℚ) (now : ℤ)
    (l : List HandObservation) :
    ∀ (hist : Side → Option History) (hands : List HandState)
      (o : HandObservation) (anchor : Landmark),
      o ∈ l →
      (∀ o' ∈ l, o'.side = Side.LEFT ∨ o'.side = Side.RIGHT) →
      (l.map HandObservation.side).Nodup →
      (∀ o' ∈ l, 9 ≤ o'.landmarks.length) →
      o.landmarks[8]? = some anchor →
      hist o.side = none →
      ∃ hist' hands', updateGo alpha sqrtQ now hist hands l = some (hist', hands') ∧
        ∃ h ∈ hands', h.side = o.side ∧ h.position = ⟨anchor.x, anchor.y, anchor.z⟩ ∧
          h.velocity = ⟨0, 0, 0⟩ ∧ h.acceleration = ⟨0, 0, 0⟩ := by
  induction l with
  | nil => intro _ _ _ _ ho; cases ho
  | cons obs rest ih =>
      intro hist hands o anchor ho hsides hnd hlm hanchor hcold
      have hsobs : obs.side = Side.LEFT ∨ obs.side = Side.RIGHT := hsides obs (by simp)
      rcases List.mem_cons.mp ho with rfl | ho'
      · -- the cold hand is the first observation processed
        have hv : _position_from_landmarks o.landmarks =
            some ⟨anchor.x, anchor.y, anchor.z⟩ := by
          simp [_position_from_landmarks, hanchor]
        simp only [updateGo, hv, if_pos hsobs, hcold]
        obtain ⟨hist', hands', hp, hmem⟩ :=
          updateGo_produces alpha sqrtQ now rest
            (fun s => if s = o.side then
                some ⟨⟨anchor.x, anchor.y, anchor.z⟩, ⟨0, 0, 0⟩, ⟨0, 0, 0⟩, now⟩
              else hist s)
            (hands ++ [⟨o.side, o.confidence, o.landmarks, ⟨anchor.x, anchor.y, anchor.z⟩,
              ⟨0, 0, 0⟩, ⟨0, 0, 0⟩, sqrtQ (vecMagSq ⟨0, 0, 0⟩), sqrtQ (vecMagSq ⟨0, 0, 0⟩),
              -(Vec3.mk anchor.x anchor.y anchor.z).z, now⟩])
            (fun o' ho' => hlm o' (by simp [ho'])) _
            (List.mem_append_right _ (List.mem_singleton_self _))
        exact ⟨hist', hands', hp, _, hmem, rfl, rfl, rfl, rfl⟩
      · -- the cold hand comes later: the first write is to a different side
        obtain ⟨v, hv⟩ := position_from_landmarks_isSome (hlm obs (by simp))
        have hneq : o.side ≠ obs.side := by
          intro hEq
          have : obs.side ∈ rest.map HandObservation.side :=
            hEq ▸ List.mem_map_of_mem _ ho'
          exact (List.nodup_cons.mp (by simpa using hnd)).1 this
        simp only [updateGo, hv, if_pos hsobs]
        exact ih _ _ o anchor ho' (fun o' ho'' => hsides o' (by simp [ho'']))
          (by simpa using (List.nodup_cons.mp (by simpa using hnd)).2)
          (fun o' ho'' => hlm o' (by simp [ho''])) hanchor
          (by simp [hneq, hcold])

lemma updateGo_nodup (alpha : ℚ) (sqrtQ : ℚ → ℚ) (now : ℤ)
    (l : List HandObservation) :
    ∀ (hist : Side → Option History) (hands : List HandState) hist' hands',
      updateGo alpha sqrtQ now hist hands l = some (hist', hands') →
      (l.map HandObservation.side).Nodup →
      (hands.map HandState.side).Nodup →
      (∀ h ∈ hands, ∀ j : ℕ, h.side = Side.HAND j → j < hands.length) →
      (∀ o ∈ l, (o.side = Side.LEFT ∨ o.side = Side.RIGHT) →
        ∀ h ∈ hands, h.side ≠ o.side) →
      (hands'.map HandState.side).Nodup := by
  induction l with
  | nil =>
      intro hist hands hist' hands' he _ h2 _ _
      simp only [updateGo, Option.some_inj, Prod.mk.injEq] at he
      exact he.2 ▸ h2
  | cons obs rest ih =>
      intro hist hands hist' hands' he h1 h2 h3 h4
      rw [List.map_cons] at h1
      have h1' := List.nodup_cons.mp h1
      cases hv : _position_from_landmarks obs.landmarks with
      | none => simp [updateGo, hv] at he
      | some v =>
          by_cases hs : obs.side = Side.LEFT ∨ obs.side = Side.RIGHT
          · simp only [updateGo, hv, if_pos hs] at he
            refine ih _ _ _ _ he h1'.2 ?_ ?_ ?_
            · -- appended sides stay distinct: no existing hand carries obs.side
              rw [List.map_append]
              refine List.Nodup.append h2 (by simp) ?_
              intro s hs1 hs2
              simp only [List.map_cons, List.map_nil, List.mem_singleton] at hs2
              obtain ⟨h, hh, hside⟩ := List.mem_map.mp hs1
              exact h4 obs (by simp) hs h hh (by rw [hside, hs2])
            · intro h hh j hj
              rw [List.length_append]
              rcases List.mem_append.mp hh with hh | hh
              · exact lt_trans (h3 h hh j hj) (by simp)
              · -- the new hand's side is LEFT or RIGHT, never HAND j
                have : h.side = obs.side := by
                  rw [List.mem_singleton.mp hh]
                rw [this] at hj
                rcases hs with hL | hR
                · rw [hL] at hj; cases hj
                · rw [hR] at hj; cases hj
            · intro o' ho' hlr h hh
              rcases List.mem_append.mp hh with hh | hh
              · exact h4 o' (by simp [ho']) hlr h hh
              · have hside : h.side = obs.side := by
                  rw [List.mem_singleton.mp hh]
                rw [hside]
                intro hEq
                exact h1'.1 (hEq ▸ List.mem_map_of_mem _ ho')
          · simp only [updateGo, hv, if_neg hs] at he
            refine ih _ _ _ _ he h1'.2 ?_ ?_ ?_
            · rw [List.map_append]
              refine List.Nodup.append h2 (by simp) ?_
              intro s hs1 hs2
              simp only [List.map_cons, List.map_nil, List.mem_singleton] at hs2
              obtain ⟨h, hh, hside⟩ := List.mem_map.mp hs1
              have := h3 h hh hands.length (by rw [hside, hs2])
              omega
            · intro h hh j hj
              rw [List.length_append]
              rcases List.mem_append.mp hh with hh | hh
              · exact lt_trans (h3 h hh j hj) (by simp)
              · have : h.side = Side.HAND hands.length := by
                  rw [List.mem_singleton.mp hh]
                rw [this] at hj
                cases hj
                simp
            · intro o' ho' hlr h hh
              rcases List.mem_append.mp hh with hh | hh
              · exact h4 o' (by simp [ho']) hlr h hh
              · have hside : h.side = Side.HAND hands.length := by
                  rw [List.mem_singleton.mp hh]
                rw [hside]
                rcases hlr with hL | hR
                · rw [hL]; intro hEq; cases hEq
                · rw [hR]; intro hEq; cases hEq

lemma updateGo_conf (alpha : ℚ) (sqrtQ : ℚ → ℚ) (now : ℤ)
    (l : List HandObservation) :
    ∀ (hist : Side → Option History) (hands : List HandState) hist' hands',
      updateGo alpha sqrtQ now hist hands l = some (hist', hands') →
      ∀ h ∈ hands', h ∈ hands ∨ ∃ o ∈ l, h.confidence = o.confidence := by
  induction l with
  | nil =>
      intro hist hands hist' hands' he h hm
      simp only [updateGo, Option.some_inj, Prod.mk.injEq] at he
      exact Or.inl (he.2 ▸ hm)
  | cons obs rest ih =>
      intro hist hands hist' hands' he h hm
      cases hv : _position_from_landmarks obs.landmarks with
      | none => simp [updateGo, hv] at he
      | some v =>
          simp only [updateGo, hv] at he
          rcases ih _ _ _ _ he h hm with hmem | ⟨o, ho, hc⟩
          · rcases List.mem_append.mp hmem with h1 | h1
            · exact Or.inl h1
            · refine Or.inr ⟨obs, by simp, ?_⟩
              rw [List.mem_singleton.mp h1]
          · exact Or.inr ⟨o, by simp [ho], hc⟩

/-! ## Helper lemmas: gesture recognizer -/

lemma candidate_confidence_mem (name : String) (conf : ℚ) (source : String) :
    0 ≤ (_candidate name conf source).confidence ∧
      (_candidate name conf source).confidence ≤ 1 :=
  ⟨le_max_left 0 _, max_le (by norm_num) (min_le_right _ _)⟩

lemma detect_static_conf (hand : HandState) (st : Option GestureCandidate)
    (c : GestureCandidate) (h : _detect_static_for_hand hand = some st)
    (hc : st = some c) : 0 ≤ c.confidence ∧ c.confidence ≤ 1 := by
  unfold _detect_static_for_hand at h
  subst hc
  split at h
  · cases h
  · cases h
  · rw [← Option.some_inj.mp (Option.some_inj.mp h)]
    exact candidate_confidence_mem _ _ _

lemma detect_dynamic_shape (g : GestureRecognizer) (side : Side) :
    _detect_dynamic_for_hand g side = none ∨
      ∃ name conf src, _detect_dynamic_for_hand g side = some (_candidate name conf src) := by
  simp only [_detect_dynamic_for_hand]
  split
  · exact Or.inl rfl
  · split
    · split
      · exact Or.inl rfl
      · split
        · exact Or.inr ⟨_, _, _, rfl⟩
        · split
          · exact Or.inr ⟨_, _, _, rfl⟩
          · split
            · exact Or.inr ⟨_, _, _, rfl⟩
            · exact Or.inl rfl
    · exact Or.inl rfl

lemma detect_dynamic_conf (g : GestureRecognizer) (side : Side) (c : GestureCandidate)
    (h : _detect_dynamic_for_hand g side = some c) :
    0 ≤ c.confidence ∧ c.confidence ≤ 1 := by
  rcases detect_dynamic_shape g side with hs | ⟨name, conf, src, hs⟩
  · rw [hs] at h; cases h
  · rw [hs] at h
    rw [← Option.some_inj.mp h]
    exact candidate_confidence_mem _ _ _

lemma chooseCandidate_mem (dy st : Option GestureCandidate) (c : GestureCandidate)
    (h : chooseCandidate dy st = some c) : dy = some c ∨ st = some c := by
  unfold chooseCandidate at h
  split_ifs at h
  · exact Or.inl h
  · exact Or.inr h
  · exact Or.inl h

lemma detectLoop_notMem (g : GestureRecognizer) (l : List HandState) :
    ∀ (out res : Side → Option GestureCandidate) (s : Side),
      detectLoop g out l = some res → s ∉ l.map HandState.side → res s = out s := by
  induction l with
  | nil =>
      intro out res s he _
      simp only [detectLoop, Option.some_inj] at he
      rw [← he]
  | cons hand rest ih =>
      intro out res s he hni
      cases hst : _detect_static_for_hand hand with
      | none => simp [detectLoop, hst] at he
      | some st =>
          simp only [detectLoop, hst] at he
          have hs1 : s ≠ hand.side := by
            intro hEq; exact hni (by simp [hEq])
          have hs2 : s ∉ rest.map HandState.side := by
            intro hEq; exact hni (by simp [hEq])
          cases hc : chooseCandidate (_detect_dynamic_for_hand g hand.side) st with
          | none =>
              simp only [hc] at he
              exact ih _ _ _ he hs2
          | some c =>
              simp only [hc] at he
              rw [ih _ _ _ he hs2]
              simp [hs1]

lemma detectLoop_lookup (g : GestureRecognizer) (l : List HandState) :
    ∀ (out res : Side → Option GestureCandidate) (hand : HandState)
      (st : Option GestureCandidate),
      detectLoop g out l = some res → hand ∈ l → (l.map HandState.side).Nodup →
      out hand.side = none → _detect_static_for_hand hand = some st →
      res hand.side = chooseCandidate (_detect_dynamic_for_hand g hand.side) st := by
  induction l with
  | nil => intro _ _ _ _ _ hm; cases hm
  | cons h0 rest ih =>
      intro out res hand st he hm hnd hout hst
      rw [List.map_cons] at hnd
      have hnd' := List.nodup_cons.mp hnd
      cases hst0 : _detect_static_for_hand h0 with
      | none => simp [detectLoop, hst0] at he
      | some st0 =>
          simp only [detectLoop, hst0] at he
          rcases List.mem_cons.mp hm with rfl | hm'
          · have hst' : st0 = st := Option.some_inj.mp (hst0 ▸ hst)
            subst hst'
            have hni : hand.side ∉ rest.map HandState.side := hnd'.1
            cases hc : chooseCandidate (_detect_dynamic_for_hand g hand.side) st0 with
            | none =>
                simp only [hc] at he
                exact (detectLoop_notMem g rest _ _ _ he hni).trans hout
            | some c =>
                simp only [hc] at he
                exact (detectLoop_notMem g rest _ _ _ he hni).trans (by simp)
          · have hside : h0.side ≠ hand.side := by
              intro hEq
              exact hnd'.1 (hEq ▸ List.mem_map_of_mem _ hm')
            cases hc : chooseCandidate (_detect_dynamic_for_hand g h0.side) st0 with
            | none =>
                simp only [hc] at he
                exact ih _ _ _ _ he hm' hnd'.2 hout hst
            | some c =>
                simp only [hc] at he
                exact ih _ _ _ _ he hm' hnd'.2 (by simp [Ne.symm hside, hout]) hst

lemma detectLoop_range (g : GestureRecognizer) (l : List HandState) :
    ∀ (out res : Side → Option GestureCandidate),
      detectLoop g out l = some res →
      (∀ s c, out s = some c → 0 ≤ c.confidence ∧ c.confidence ≤ 1) →
      ∀ s c, res s = some c → 0 ≤ c.confidence ∧ c.confidence ≤ 1 := by
  induction l with
  | nil =>
      intro out res he hinv
      simp only [detectLoop, Option.some_inj] at he
      exact he ▸ hinv
  | cons hand rest ih =>
      intro out res he hinv
      cases hst : _detect_static_for_hand hand with
      | none => simp [detectLoop, hst] at he
      | some st =>
          simp only [detectLoop, hst] at he
          cases hc : chooseCandidate (_detect_dynamic_for_hand g hand.side) st with
          | none =>
              simp only [hc] at he
              exact ih _ _ he hinv
          | some c =>
              simp only [hc] at he
              refine ih _ _ he ?_
              intro s c' hsc
              by_cases hs : s = hand.side
              · simp only [hs, if_true, if_pos] at hsc
                have hcc : c = c' := Option.some_inj.mp hsc
                subst hcc
                rcases chooseCandidate_mem _ _ _ hc with hd | hd
                · exact detect_dynamic_conf g hand.side c hd
                · exact detect_static_conf hand st c hst hd
              · simp only [if_neg hs] at hsc
                exact hinv s c' hsc

/-! ## Helper lemmas: action dispatcher -/

lemma ruleLe_iff (a b : EligibleRule) : ruleLe a b = true ↔ keyLE b a := by
  simp [ruleLe, keyLE]

lemma keyLE_refl (a : EligibleRule) : keyLE a a := Or.inr ⟨rfl, le_refl _⟩

lemma keyLE_trans {a b c : EligibleRule} (h1 : keyLE a b) (h2 : keyLE b c) :
    keyLE a c := by
  rcases h1 with h1 | ⟨h1, h1'⟩ <;> rcases h2 with h2 | ⟨h2, h2'⟩
  · exact Or.inl (lt_trans h1 h2)
  · exact Or.inl (h2 ▸ h1)
  · exact Or.inl (h1 ▸ h2)
  · exact Or.inr ⟨h1.trans h2, h1'.trans h2'⟩

lemma keyLE_total (a b : EligibleRule) : keyLE a b ∨ keyLE b a := by
  rcases lt_trichotomy a.priority b.priority with h | h | h
  · exact Or.inl (Or.inl h)
  · rcases le_total a.confidence b.confidence with hc | hc
    · exact Or.inl (Or.inr ⟨h, hc⟩)
    · exact Or.inr (Or.inr ⟨h.symm, hc⟩)
  · exact Or.inr (Or.inl h)

lemma ruleLe_trans : ∀ (a b c : EligibleRule),
    ruleLe a b = true → ruleLe b c = true → ruleLe a c = true := by
  intro a b c h1 h2
  exact (ruleLe_iff a c).mpr (keyLE_trans ((ruleLe_iff b c).mp h2) ((ruleLe_iff a b).mp h1))

lemma ruleLe_total : ∀ (a b : EligibleRule), (ruleLe a b || ruleLe b a) = true := by
  intro a b
  rcases keyLE_total a b with h | h
  · simp [ruleLe_iff, h]
  · simp [ruleLe_iff, h]

lemma firstMax_eq_none {l : List EligibleRule} : firstMax l = none ↔ l = [] := by
  cases l with
  | nil => simp [firstMax]
  | cons a l =>
      simp only [firstMax]
      cases firstMax l with
      | none => simp
      | some m =>
          by_cases h : keyLE m a <;> simp [h]

lemma head_mergeSort_eq_firstMax (l : List EligibleRule) :
    (l.mergeSort ruleLe).head? = firstMax l := by
  induction l with
  | nil => simp [List.mergeSort_nil, firstMax]
  | cons a l ih =>
      obtain ⟨l₁, l₂, h1, h2, h3⟩ := List.mergeSort_cons ruleLe_trans ruleLe_total a l
      cases l₁ with
      | nil =>
          simp only [List.nil_append] at h1 h2
          rw [h1]
          simp only [List.head?_cons, firstMax]
          cases hfm : firstMax l with
          | none => rfl
          | some m =>
              have hm2 : l₂.head? = some m := by rw [← h2, ih, hfm]
              cases l₂ with
              | nil => cases hm2
              | cons b t =>
                  have hb : b = m := Option.some_inj.mp hm2
                  subst hb
                  have hsorted := List.sorted_mergeSort ruleLe_trans ruleLe_total (a :: l)
                  rw [h1] at hsorted
                  have hab : ruleLe a b = true :=
                    (List.pairwise_cons.mp hsorted).1 b (by simp)
                  show some a = if keyLE b a then some a else some b
                  rw [if_pos ((ruleLe_iff a b).mp hab)]
      | cons b t₁ =>
          have hhead : (List.mergeSort (a :: l) ruleLe).head? = some b := by
            rw [h1]; rfl
          have hfm : firstMax l = some b := by
            rw [← ih, h2]; rfl
          have hnab : ¬ ruleLe a b = true := by
            have := h3 b (by simp)
            simp only [Bool.not_eq_true'] at this
            simp [this]
          rw [hhead]
          simp only [firstMax, hfm]
          rw [if_neg (fun hk => hnab ((ruleLe_iff a b).mpr hk))]

lemma firstMax_mem : ∀ (l : List EligibleRule) (m : EligibleRule),
    firstMax l = some m → m ∈ l := by
  intro l
  induction l with
  | nil => intro m h; cases h
  | cons a l ih =>
      intro m h
      simp only [firstMax] at h
      cases hfm : firstMax l with
      | none =>
          rw [hfm] at h
          have h' : some a = some m := h
          exact (Option.some_inj.mp h') ▸ List.mem_cons_self a l
      | some m' =>
          rw [hfm] at h
          have h' : (if keyLE m' a then some a else some m') = some m := h
          by_cases hk : keyLE m' a
          · rw [if_pos hk] at h'
            exact (Option.some_inj.mp h') ▸ List.mem_cons_self a l
          · rw [if_neg hk] at h'
            exact List.mem_cons_of_mem a (ih m ((Option.some_inj.mp h') ▸ hfm))

lemma firstMax_ub : ∀ (l : List EligibleRule) (m : EligibleRule),
    firstMax l = some m → ∀ e ∈ l, keyLE e m := by
  intro l
  induction l with
  | nil => intro m h; cases h
  | cons a l ih =>
      intro m h e he
      simp only [firstMax] at h
      cases hfm : firstMax l with
      | none =>
          rw [hfm] at h
          have h' : some a = some m := h
          have hl : l = [] := firstMax_eq_none.mp hfm
          subst hl
          rcases List.mem_cons.mp he with rfl | he'
          · exact (Option.some_inj.mp h') ▸ keyLE_refl e
          · cases he'
      | some m' =>
          rw [hfm] at h
          have h' : (if keyLE m' a then some a else some m') = some m := h
          by_cases hk : keyLE m' a
          · rw [if_pos hk] at h'
            have hma : m = a := (Option.some_inj.mp h').symm
            subst hma
            rcases List.mem_cons.mp he with rfl | he'
            · exact keyLE_refl e
            · exact keyLE_trans (ih m' hfm e he') hk
          · rw [if_neg hk] at h'
            have hmm : m = m' := (Option.some_inj.mp h').symm
            subst hmm
            rcases List.mem_cons.mp he with rfl | he'
            · rcases keyLE_total e m with hm | hm
              · exact hm
              · exact absurd hm hk
            · exact ih m hfm e he'

lemma firstMax_first : ∀ (l : List EligibleRule) (m : EligibleRule),
    firstMax l = some m →
    ∃ l1 l2, l = l1 ++ m :: l2 ∧ ∀ e ∈ l1, ¬ keyLE m e := by
  intro l
  induction l with
  | nil => intro m h; cases h
  | cons a l ih =>
      intro m h
      simp only [firstMax] at h
      cases hfm : firstMax l with
      | none =>
          rw [hfm] at h
          have h' : some a = some m := h
          exact ⟨[], l, by simp [Option.some_inj.mp h'], by simp⟩
      | some m' =>
          rw [hfm] at h
          have h' : (if keyLE m' a then some a else some m') = some m := h
          by_cases hk : keyLE m' a
          · rw [if_pos hk] at h'
            exact ⟨[], l, by simp [Option.some_inj.mp h'], by simp⟩
          · rw [if_neg hk] at h'
            have hmm : m = m' := (Option.some_inj.mp h').symm
            subst hmm
            obtain ⟨l1, l2, hsplit, hlt⟩ := ih m hfm
            refine ⟨a :: l1, l2, by simp [hsplit], ?_⟩
            intro e he
            rcases List.mem_cons.mp he with rfl | he'
            · exact hk
            · exact hlt e he'


lemma update_hands (sqrtQ : ℚ → ℚ) (est : MotionEstimator)
    (obs : List HandObservation) (ts : ℤ) (hands : List HandState)
    (h : (update sqrtQ est obs ts).map (fun p => p.2.hands) = some hands) :
    ∃ hist', updateGo est.smoothing_alpha sqrtQ ts (purgeStale est ts) [] obs =
      some (hist', hands) := by
  cases hu : updateGo est.smoothing_alpha sqrtQ ts (purgeStale est ts) [] obs with
  | none => simp [update, hu] at h
  | some p =>
      cases p with
      | mk hist' hands' =>
          simp only [update, hu, Option.map_some'] at h
          have hh : hands' = hands := Option.some_inj.mp h
          subst hh
          exact ⟨hist', rfl⟩

/-! ## Claim C1 -/

/-- C1, amended.  `MotionEstimator.update` returns a `FrameState` (never
raises) for every observation list in which each observation carries at least
9 landmark points, and the empty observation list degrades to an empty
`FrameState`.  (The original claim also covered malformed landmark sequences;
`update_raises_on_short_landmarks` refutes that part: `landmarks[8]` raises
`IndexError`.) -/
theorem update_no_raise_on_wellformed_input :
    (∀ (sqrtQ : ℚ → ℚ) (est : MotionEstimator) (obs : List HandObservation) (ts : ℤ),
      (∀ o ∈ obs, 9 ≤ o.landmarks.length) → (update sqrtQ est obs ts).isSome = true)
    ∧ ∀ (sqrtQ : ℚ → ℚ) (est : MotionEstimator) (ts : ℤ),
      (update sqrtQ est ([] : List HandObservation) ts).map Prod.snd =
        some ⟨[], none, none⟩ := by
  constructor
  · intro sqrtQ est obs ts h
    obtain ⟨⟨hist', hands'⟩, hp⟩ := Option.isSome_iff_exists.mp
      (updateGo_isSome est.smoothing_alpha sqrtQ ts obs (purgeStale est ts) [] h)
    simp [update, hp]
  · intro sqrtQ est ts
    rfl

/-- C1, counterexample to the claim as stated: an observation whose landmark
sequence has fewer than 9 points makes `update` raise (`none`), instead of
degrading to an empty `FrameState`. -/
theorem update_raises_on_short_landmarks :
    update sqrtId est0 [obsNoLandmarks] 0 = none := rfl

/-- Witness for C1 at a concrete input. -/
theorem update_no_raise_on_wellformed_input_witness :
    (∀ o ∈ [obsRight], 9 ≤ o.landmarks.length)
    ∧ (update sqrtId est0 [obsRight] 0).isSome = true
    ∧ (update sqrtId est0 ([] : List HandObservation) 7).map Prod.snd =
        some ⟨[], none, none⟩ :=
  ⟨by with_unfolding_all decide,
   update_no_raise_on_wellformed_input.1 sqrtId est0 [obsRight] 0 (by with_unfolding_all decide),
   update_no_raise_on_wellformed_input.2 sqrtId est0 7⟩

/-! ## Claim C6 -/

/-- C6.  Cold start and staleness: when a LEFT/RIGHT-labelled observation's
side has no usable history — the entry is absent, or is older than the
staleness threshold and hence purged before the frame is processed —
`update` emits a `HandState` for that side whose position equals the raw
anchor point (landmark 8) and whose velocity and acceleration are exactly
`(0, 0, 0)`, regardless of the raw position. -/
theorem update_cold_start (sqrtQ : ℚ → ℚ) (est : MotionEstimator)
    (obs : List HandObservation) (ts : ℤ) (o : HandObservation) (anchor : Landmark)
    (ho : o ∈ obs)
    (hsides : ∀ o' ∈ obs, o'.side = Side.LEFT ∨ o'.side = Side.RIGHT)
    (hnd : (obs.map HandObservation.side).Nodup)
    (hlm : ∀ o' ∈ obs, 9 ≤ o'.landmarks.length)
    (hanchor : o.landmarks[8]? = some anchor)
    (hcold : ∀ hrec, est.history o.side = some hrec →
      est.max_stale_ms < ts - hrec.timestamp_ms) :
    ∃ hands, (update sqrtQ est obs ts).map (fun p => p.2.hands) = some hands ∧
      ∃ h ∈ hands, h.side = o.side ∧ h.position = ⟨anchor.x, anchor.y, anchor.z⟩ ∧
        h.velocity = ⟨0, 0, 0⟩ ∧ h.acceleration = ⟨0, 0, 0⟩ := by
  have hc0 : purgeStale est ts o.side = none := by
    unfold purgeStale
    cases hh : est.history o.side with
    | none => rfl
    | some hrec => simp [hcold hrec hh]
  obtain ⟨hist', hands', hp, hex⟩ :=
    updateGo_cold est.smoothing_alpha sqrtQ ts obs (purgeStale est ts) [] o anchor
      ho hsides hnd hlm hanchor hc0
  exact ⟨hands', by simp [update, hp], hex⟩

/-- Witness for C6 at a concrete input: the RIGHT history entry (with
conspicuous nonzero velocity) is 300 ms old at `t = 300`, beyond the 250 ms
threshold, so the emitted hand sits at the raw anchor with zero derivatives. -/
theorem update_cold_start_witness :
    ∃ hands, (update sqrtId estStale [obsRight] 300).map (fun p => p.2.hands) = some hands ∧
      ∃ h ∈ hands, h.side = obsRight.side ∧
        h.position = ⟨(⟨1/2, 1/2, 0⟩ : Landmark).x, (⟨1/2, 1/2, 0⟩ : Landmark).y,
          (⟨1/2, 1/2, 0⟩ : Landmark).z⟩ ∧
        h.velocity = ⟨0, 0, 0⟩ ∧ h.acceleration = ⟨0, 0, 0⟩ :=
  update_cold_start sqrtId estStale [obsRight] 300 obsRight ⟨1/2, 1/2, 0⟩
    (by with_unfolding_all decide) (by with_unfolding_all decide) (by with_unfolding_all decide) (by with_unfolding_all decide) (by with_unfolding_all decide)
    (by
      intro hrec hh
      have : some (⟨⟨0, 0, 0⟩, ⟨5, 5, 5⟩, ⟨1, 1, 1⟩, 0⟩ : History) = some hrec := hh
      rw [← Option.some_inj.mp this]
      with_unfolding_all decide)

/-! ## Claim C9 -/

/-- C9, amended.  When the input observations carry pairwise distinct side
labels, the `FrameState` returned by `update` holds at most one `HandState`
per side: the emitted side labels are pairwise distinct.  (The original
claim also asserted this for duplicate-side inputs;
`update_duplicate_side_counterexample` refutes that: two RIGHT observations
yield two RIGHT `HandState`s.) -/
theorem update_per_side_unique (sqrtQ : ℚ → ℚ) (est : MotionEstimator)
    (obs : List HandObservation) (ts : ℤ) (hands : List HandState)
    (hnd : (obs.map HandObservation.side).Nodup)
    (hup : (update sqrtQ est obs ts).map (fun p => p.2.hands) = some hands) :
    (hands.map HandState.side).Nodup := by
  obtain ⟨hist', hp⟩ := update_hands sqrtQ est obs ts hands hup
  exact updateGo_nodup est.smoothing_alpha sqrtQ ts obs _ _ _ _ hp hnd
    (by simp) (by simp) (by simp)

/-- C9, counterexample to the claim as stated: feeding two observations both
labelled RIGHT produces a `FrameState` holding two `HandState`s with side
RIGHT, not at most one. -/
theorem update_duplicate_side_counterexample :
    (update sqrtId est0 [obsRight, obsRight] 0).map
      (fun p => p.2.hands.countP (fun h => h.side == Side.RIGHT)) = some 2 := by
  with_unfolding_all decide

/-- Witness for C9 at a concrete input. -/
theorem update_per_side_unique_witness :
    (([obsRight, obsLeft].map HandObservation.side).Nodup)
    ∧ ((update sqrtId est0 [obsRight, obsLeft] 0).map (fun p => p.2.hands) =
        some [handRightCold, handLeftCold])
    ∧ (([handRightCold, handLeftCold].map HandState.side).Nodup) :=
  ⟨by with_unfolding_all decide, by with_unfolding_all decide,
   update_per_side_unique sqrtId est0 [obsRight, obsLeft] 0
     [handRightCold, handLeftCold] (by with_unfolding_all decide) (by with_unfolding_all decide)⟩

/-! ## Claim C8 -/

/-- C8, amended.  Every `GestureCandidate` the recognizer emits has its
confidence clamped into `[0, 1]` (all candidates are built through
`_candidate`), but `HandState.confidence` is the upstream observation's
confidence passed through unchanged, so it lies in `[0, 1]` only when the
upstream value does.  (`handstate_confidence_counterexample` refutes the
original claim's `HandState` half.) -/
theorem confidence_clamping :
    (∀ (g : GestureRecognizer) (fs : FrameState) (s : Side) (c : GestureCandidate),
      (detect_for_frame g fs).map (fun p => p.2 s) = some (some c) →
      0 ≤ c.confidence ∧ c.confidence ≤ 1)
    ∧ ∀ (sqrtQ : ℚ → ℚ) (est : MotionEstimator) (obs : List HandObservation) (ts : ℤ)
        (hands : List HandState),
      (update sqrtQ est obs ts).map (fun p => p.2.hands) = some hands →
      ∀ h ∈ hands, ∃ o ∈ obs, h.confidence = o.confidence := by
  constructor
  · intro g fs s c h
    cases hl : detectLoop (_update_history g fs) (fun _ => none) fs.hands with
    | none => simp [detect_for_frame, hl] at h
    | some out =>
        simp only [detect_for_frame, hl, Option.map_some'] at h
        exact detectLoop_range _ _ _ _ hl (fun s' c' hq => by simp at hq) s c
          (Option.some_inj.mp h)
  · intro sqrtQ est obs ts hands hup h hm
    obtain ⟨hist', hp⟩ := update_hands sqrtQ est obs ts hands hup
    rcases updateGo_conf est.smoothing_alpha sqrtQ ts obs _ _ _ _ hp h hm with hin | hex
    · cases hin
    · exact hex

/-- C8, counterexample to the claim as stated: an observation confidence of
1.5 flows through `update` into the emitted `HandState` unchanged, outside
`[0, 1]`. -/
theorem handstate_confidence_counterexample :
    (update sqrtId est0 [obsOverConfident] 0).map
      (fun p => p.2.hands.map HandState.confidence) = some [3/2]
    ∧ ¬ ((3:ℚ)/2 ≤ 1) := by
  constructor
  · with_unfolding_all decide
  · norm_num

/-- Witness for C8 at concrete inputs: the recognizer's OPEN_PALM candidate
confidence lies in `[0, 1]`, and the emitted HandState confidence equals the
observation's. -/
theorem confidence_clamping_witness :
    ((detect_for_frame gRec0 palmFrame).map (fun p => p.2 Side.RIGHT) =
      some (some palmCandidate))
    ∧ (0 ≤ palmCandidate.confidence ∧ palmCandidate.confidence ≤ 1)
    ∧ ((update sqrtId est0 [obsRight] 0).map (fun p => p.2.hands) = some [handRightCold])
    ∧ ∃ o ∈ [obsRight], handRightCold.confidence = o.confidence :=
  ⟨by with_unfolding_all decide,
   confidence_clamping.1 gRec0 palmFrame Side.RIGHT palmCandidate
     (by with_unfolding_all decide),
   by with_unfolding_all decide,
   confidence_clamping.2 sqrtId est0 [obsRight] 0 [handRightCold]
     (by with_unfolding_all decide) handRightCold (by with_unfolding_all decide)⟩

/-! ## Claim C7 -/

/-- C7.  `detect_simple_gesture` tests PINCH first: a 21-landmark input whose
thumb-tip-to-index-tip xy distance is below 0.05 classifies as PINCH even
when the OPEN_PALM geometry (all four finger tips above their pips) holds as
well.  The distance comparison is stated on squares (`_distance_sq`),
equivalent to the source's `sqrt < 0.05` since both sides are nonnegative. -/
theorem static_pinch_precedence (lm : List Landmark)
    (p4 p6 p8 p10 p12 p14 p16 p18 p20 : Landmark)
    (h4 : lm[4]? = some p4) (h6 : lm[6]? = some p6) (h8 : lm[8]? = some p8)
    (h10 : lm[10]? = some p10) (h12 : lm[12]? = some p12) (h14 : lm[14]? = some p14)
    (h16 : lm[16]? = some p16) (h18 : lm[18]? = some p18) (h20 : lm[20]? = some p20)
    (hpinch : _distance_sq (p4.x, p4.y) (p8.x, p8.y) < (5/100) * (5/100))
    (hpalm : p8.y < p6.y ∧ p12.y < p10.y ∧ p16.y < p14.y ∧ p20.y < p18.y) :
    detect_simple_gesture lm = some (some "PINCH") := by
  simp [detect_simple_gesture, _is_finger_up, h4, h6, h8, h10, h12, hpinch]

/-- Witness for C7 at the contrived input satisfying both geometries. -/
theorem static_pinch_precedence_witness :
    (_distance_sq (((1:ℚ)/2, (2:ℚ)/10)) (((1:ℚ)/2, (2:ℚ)/10)) < (5/100) * (5/100))
    ∧ ((2:ℚ)/10 < 8/10)
    ∧ detect_simple_gesture pinchPalmLm = some (some "PINCH") :=
  ⟨by norm_num [_distance_sq], by norm_num,
   static_pinch_precedence pinchPalmLm
     ⟨1/2, 2/10, 0⟩ ⟨1/2, 8/10, 0⟩ ⟨1/2, 2/10, 0⟩ ⟨1/2, 8/10, 0⟩ ⟨1/2, 2/10, 0⟩
     ⟨1/2, 8/10, 0⟩ ⟨1/2, 2/10, 0⟩ ⟨1/2, 8/10, 0⟩ ⟨1/2, 2/10, 0⟩
     (by with_unfolding_all decide) (by with_unfolding_all decide)
     (by with_unfolding_all decide) (by with_unfolding_all decide)
     (by with_unfolding_all decide) (by with_unfolding_all decide)
     (by with_unfolding_all decide) (by with_unfolding_all decide)
     (by with_unfolding_all decide)
     (by norm_num [_distance_sq]) (by norm_num)⟩

/-! ## Claim C2 -/

/-- C2.  Horizontal dynamic classification: for every history window of at
least 6 samples (with the pipeline's nonnegative per-sample speeds) that
passes the energy gate, if `|dx|` exceeds the default horizontal threshold
0.12 and `|dx| > |dy|` (newest minus oldest positions), the dynamic
classifier returns SWIPE_RIGHT when `dx > 0` and SWIPE_LEFT when `dx < 0`,
with confidence exactly `min(1, |dx|/0.12) * 0.7 + min(0.3, avg_speed/3)`,
and this confidence lies in `(0, 1]`. -/
theorem dynamic_horizontal_swipe (g : GestureRecognizer) (side : Side)
    (first last : HandState) (mid : List HandState)
    (hhist : g.history side = first :: mid)
    (hlen : 6 ≤ (first :: mid).length)
    (hlast : (first :: mid).getLast? = some last)
    (hdx_thresh : g.swipe_dx_threshold = 12/100)
    (hmin_speed : g.min_avg_speed = 8/10)
    (hspeed : ∀ p ∈ first :: mid, 0 ≤ p.speed)
    (hgate : ¬ (((first :: mid).map HandState.speed).sum / ((first :: mid).length : ℚ) < 8/10
        ∧ max (((last.timestamp_ms - first.timestamp_ms : ℤ) : ℚ) / 1000) (1/1000) < 12/100))
    (hdx : 12/100 < |last.position.x - first.position.x|)
    (hdom : |last.position.y - first.position.y| < |last.position.x - first.position.x|) :
    _detect_dynamic_for_hand g side =
      some ⟨if 0 < last.position.x - first.position.x then "SWIPE_RIGHT" else "SWIPE_LEFT",
        min 1 (|last.position.x - first.position.x| / (12/100)) * (7/10)
          + min (3/10)
            (((first :: mid).map HandState.speed).sum / ((first :: mid).length : ℚ) / 3),
        "DYNAMIC"⟩
    ∧ 0 < min 1 (|last.position.x - first.position.x| / (12/100)) * (7/10)
          + min (3/10)
            (((first :: mid).map HandState.speed).sum / ((first :: mid).length : ℚ) / 3)
    ∧ min 1 (|last.position.x - first.position.x| / (12/100)) * (7/10)
          + min (3/10)
            (((first :: mid).map HandState.speed).sum / ((first :: mid).length : ℚ) / 3) ≤ 1
    ∧ (0 < last.position.x - first.position.x →
        (_detect_dynamic_for_hand g side).map GestureCandidate.name = some "SWIPE_RIGHT")
    ∧ (last.position.x - first.position.x < 0 →
        (_detect_dynamic_for_hand g side).map GestureCandidate.name = some "SWIPE_LEFT") := by
  have h6 : ¬ ((first :: mid).length < 6) := by omega
  have hterm1 : min 1 (|last.position.x - first.position.x| / (12/100)) = 1 :=
    min_eq_left ((one_le_div (by norm_num)).mpr hdx.le)
  have havg : 0 ≤ ((first :: mid).map HandState.speed).sum / ((first :: mid).length : ℚ) := by
    apply div_nonneg
    · apply List.sum_nonneg
      intro q hq
      obtain ⟨p, hp, rfl⟩ := List.mem_map.mp hq
      exact hspeed p hp
    · positivity
  have hterm2a : 0 ≤ min (3/10)
      (((first :: mid).map HandState.speed).sum / ((first :: mid).length : ℚ) / 3) :=
    le_min (by norm_num) (by linarith)
  have hterm2b : min (3/10)
      (((first :: mid).map HandState.speed).sum / ((first :: mid).length : ℚ) / 3) ≤ 3/10 :=
    min_le_left _ _
  have hconf_pos : 0 < min 1 (|last.position.x - first.position.x| / (12/100)) * (7/10)
      + min (3/10)
        (((first :: mid).map HandState.speed).sum / ((first :: mid).length : ℚ) / 3) := by
    rw [hterm1]; linarith
  have hconf_le : min 1 (|last.position.x - first.position.x| / (12/100)) * (7/10)
      + min (3/10)
        (((first :: mid).map HandState.speed).sum / ((first :: mid).length : ℚ) / 3) ≤ 1 := by
    rw [hterm1]; linarith
  have hmain : _detect_dynamic_for_hand g side =
      some (_candidate
        (if 0 < last.position.x - first.position.x then "SWIPE_RIGHT" else "SWIPE_LEFT")
        (min 1 (|last.position.x - first.position.x| / (12/100)) * (7/10)
          + min (3/10)
            (((first :: mid).map HandState.speed).sum / ((first :: mid).length : ℚ) / 3))
        "DYNAMIC") := by
    simp only [_detect_dynamic_for_hand, hhist, if_neg h6, List.head?_cons, hlast,
      hmin_speed, hdx_thresh]
    rw [if_neg hgate, if_pos ⟨hdx, hdom⟩]
  have hclamp : _candidate
      (if 0 < last.position.x - first.position.x then "SWIPE_RIGHT" else "SWIPE_LEFT")
      (min 1 (|last.position.x - first.position.x| / (12/100)) * (7/10)
        + min (3/10)
          (((first :: mid).map HandState.speed).sum / ((first :: mid).length : ℚ) / 3))
      "DYNAMIC" =
      ⟨if 0 < last.position.x - first.position.x then "SWIPE_RIGHT" else "SWIPE_LEFT",
        min 1 (|last.position.x - first.position.x| / (12/100)) * (7/10)
          + min (3/10)
            (((first :: mid).map HandState.speed).sum / ((first :: mid).length : ℚ) / 3),
        "DYNAMIC"⟩ := by
    unfold _candidate
    rw [min_eq_left hconf_le, max_eq_right hconf_pos.le]
  refine ⟨by rw [hmain, hclamp], hconf_pos, hconf_le, ?_, ?_⟩
  · intro hpos
    rw [hmain, hclamp]
    simp only [Option.map_some', if_pos hpos]
  · intro hneg
    rw [hmain, hclamp]
    simp only [Option.map_some',
      if_neg (by linarith : ¬ 0 < last.position.x - first.position.x)]

set_option maxRecDepth 8000 in
/-- Witness for C2: the claim's synthetic window — six samples, `dx = 0.20`,
`dy = 0.01`, duration 0.2 s, average speed 1.5 — classifies SWIPE_RIGHT with
confidence 1. -/
theorem dynamic_horizontal_swipe_witness :
    (6 ≤ (swipeSample 0 :: [swipeSample 1, swipeSample 2, swipeSample 3, swipeSample 4,
        swipeSample 5]).length)
    ∧ ((12:ℚ)/100 < |(swipeSample 5).position.x - (swipeSample 0).position.x|)
    ∧ ((_detect_dynamic_for_hand swipeRec Side.RIGHT).map GestureCandidate.name =
        some "SWIPE_RIGHT")
    ∧ ((_detect_dynamic_for_hand swipeRec Side.RIGHT).map GestureCandidate.confidence =
        some 1) := by
  have h := dynamic_horizontal_swipe swipeRec Side.RIGHT (swipeSample 0) (swipeSample 5)
    [swipeSample 1, swipeSample 2, swipeSample 3, swipeSample 4, swipeSample 5]
    (by with_unfolding_all decide) (by with_unfolding_all decide)
    (by with_unfolding_all decide) (by with_unfolding_all decide)
    (by with_unfolding_all decide) (by with_unfolding_all decide)
    (by with_unfolding_all decide) (by with_unfolding_all decide)
    (by with_unfolding_all decide)
  refine ⟨by with_unfolding_all decide, by with_unfolding_all decide,
    h.2.2.2.1 (by with_unfolding_all decide), ?_⟩
  rw [h.1]
  with_unfolding_all decide

/-! ## Claim C3 -/

/-- C3.  Per-hand arbitration in `detect_for_frame`: for every hand of a
frame (with distinct side labels), the output at the hand's side is the
arbitration of its dynamic candidate (computed over the updated history)
against its static candidate, and that arbitration picks a dynamic candidate
with confidence ≥ 0.86 over any static one, else the static candidate, else
the sub-threshold dynamic candidate, and is absent when neither exists. -/
theorem per_hand_arbitration (g : GestureRecognizer) (fs : FrameState)
    (hand : HandState) (st : Option GestureCandidate)
    (hmem : hand ∈ fs.hands)
    (hnd : (fs.hands.map HandState.side).Nodup)
    (hst : _detect_static_for_hand hand = some st)
    (hdet : (detect_for_frame g fs).isSome = true) :
    ((detect_for_frame g fs).map (fun p => p.2 hand.side) =
      some (chooseCandidate (_detect_dynamic_for_hand (_update_history g fs) hand.side) st))
    ∧ (∀ d, _detect_dynamic_for_hand (_update_history g fs) hand.side = some d →
        86/100 ≤ d.confidence →
        chooseCandidate (_detect_dynamic_for_hand (_update_history g fs) hand.side) st
          = some d)
    ∧ (∀ d, _detect_dynamic_for_hand (_update_history g fs) hand.side = some d →
        d.confidence < 86/100 → ∀ sc, st = some sc →
        chooseCandidate (_detect_dynamic_for_hand (_update_history g fs) hand.side) st
          = some sc)
    ∧ (_detect_dynamic_for_hand (_update_history g fs) hand.side = none →
        ∀ sc, st = some sc →
        chooseCandidate (_detect_dynamic_for_hand (_update_history g fs) hand.side) st
          = some sc)
    ∧ (∀ d, _detect_dynamic_for_hand (_update_history g fs) hand.side = some d →
        d.confidence < 86/100 → st = none →
        chooseCandidate (_detect_dynamic_for_hand (_update_history g fs) hand.side) st
          = some d)
    ∧ (_detect_dynamic_for_hand (_update_history g fs) hand.side = none → st = none →
        chooseCandidate (_detect_dynamic_for_hand (_update_history g fs) hand.side) st
          = none) := by
  refine ⟨?_, ?_, ?_, ?_, ?_, ?_⟩
  · cases hl : detectLoop (_update_history g fs) (fun _ => none) fs.hands with
    | none => simp [detect_for_frame, hl] at hdet
    | some out =>
        simp only [detect_for_frame, hl, Option.map_some', Option.some_inj]
        exact detectLoop_lookup (_update_history g fs) fs.hands _ _ hand st hl hmem hnd
          rfl hst
  · intro d hd hconf
    simp [chooseCandidate, hd, hconf]
  · intro d hd hconf sc hsc
    simp [chooseCandidate, hd, hsc, not_le.mpr hconf]
  · intro hd sc hsc
    simp [chooseCandidate, hd, hsc]
  · intro d hd hconf hsc
    simp [chooseCandidate, hd, hsc, not_le.mpr hconf]
  · intro hd hsc
    simp [chooseCandidate, hd, hsc]

set_option maxRecDepth 8000 in
/-- Witness for C3 at a concrete frame: an OPEN_PALM hand with an empty
dynamic history — the dynamic candidate is absent and the static candidate
wins. -/
theorem per_hand_arbitration_witness :
    (palmHand ∈ palmFrame.hands)
    ∧ (_detect_static_for_hand palmHand = some (some palmCandidate))
    ∧ (_detect_dynamic_for_hand (_update_history gRec0 palmFrame) palmHand.side = none)
    ∧ ((detect_for_frame gRec0 palmFrame).map (fun p => p.2 palmHand.side) =
        some (chooseCandidate
          (_detect_dynamic_for_hand (_update_history gRec0 palmFrame) palmHand.side)
          (some palmCandidate)))
    ∧ (chooseCandidate
        (_detect_dynamic_for_hand (_update_history gRec0 palmFrame) palmHand.side)
        (some palmCandidate) = some palmCandidate) := by
  have h := per_hand_arbitration gRec0 palmFrame palmHand (some palmCandidate)
    (by with_unfolding_all decide) (by with_unfolding_all decide)
    (by with_unfolding_all decide) (by with_unfolding_all decide)
  exact ⟨by with_unfolding_all decide, by with_unfolding_all decide,
    by with_unfolding_all decide, h.1,
    h.2.2.2.1 (by with_unfolding_all decide) palmCandidate rfl⟩

/-! ## Claim C4 -/

/-- C4.  Configured-mode selection: among the rules surviving the
gesture-match, confidence and cooldown filters, `apply` dispatches the
`firstMax` of the eligible list — the rule whose `(priority, confidence)`
key is a lexicographic maximum (priority primary, confidence tie-break),
taking the first-listed rule when keys tie (every earlier rule's key is
strictly below the winner's). -/
theorem dispatch_priority_selection (eng : ActionEngine)
    (gestures : Side → Option GestureCandidate) (now : ℚ) (top : EligibleRule)
    (hm : eng.mappings ≠ []) (ha : eng.actions ≠ [])
    (hfm : firstMax (eng.mappings.filterMap (ruleCandidate eng gestures now)) = some top) :
    ((apply eng gestures now).2.1 =
      ApplyResult.dispatched top.side top.cand.name top.cand.confidence top.actionId)
    ∧ top ∈ eng.mappings.filterMap (ruleCandidate eng gestures now)
    ∧ (∀ e ∈ eng.mappings.filterMap (ruleCandidate eng gestures now), keyLE e top)
    ∧ ∃ l1 l2, eng.mappings.filterMap (ruleCandidate eng gestures now) = l1 ++ top :: l2
        ∧ ∀ e ∈ l1, ¬ keyLE top e := by
  have hhead : ((eng.mappings.filterMap (ruleCandidate eng gestures now)).mergeSort
      ruleLe).head? = some top := by
    rw [head_mergeSort_eq_firstMax, hfm]
  refine ⟨?_, firstMax_mem _ _ hfm, firstMax_ub _ _ hfm, firstMax_first _ _ hfm⟩
  cases hs : (eng.mappings.filterMap (ruleCandidate eng gestures now)).mergeSort ruleLe with
  | nil => rw [hs] at hhead; cases hhead
  | cons t rest =>
      rw [hs] at hhead
      have ht : t = top := Option.some_inj.mp hhead
      subst ht
      simp only [apply, if_pos (And.intro hm ha), hs]

set_option maxRecDepth 8000 in
/-- Witness for C4: two simultaneously eligible rules with priorities 5 and
3, the priority-3 rule carrying the higher confidence (0.99 vs 0.85) — the
priority-5 rule is dispatched regardless. -/
theorem dispatch_priority_selection_witness :
    (engTwoRules.mappings ≠ [])
    ∧ (engTwoRules.actions ≠ [])
    ∧ (firstMax (engTwoRules.mappings.filterMap
        (ruleCandidate engTwoRules gesturesTwoHands 1)) = some eligHigh)
    ∧ (eligLow ∈ engTwoRules.mappings.filterMap
        (ruleCandidate engTwoRules gesturesTwoHands 1))
    ∧ ((apply engTwoRules gesturesTwoHands 1).2.1 =
        ApplyResult.dispatched eligHigh.side eligHigh.cand.name eligHigh.cand.confidence
          eligHigh.actionId) :=
  ⟨by with_unfolding_all decide, by with_unfolding_all decide,
   by with_unfolding_all decide, by with_unfolding_all decide,
   (dispatch_priority_selection engTwoRules gesturesTwoHands 1 eligHigh
     (by with_unfolding_all decide) (by with_unfolding_all decide)
     (by with_unfolding_all decide)).1⟩

/-! ## Claim C5 -/

/-- C5.  Configured-mode debounce: a rule whose debounce key last fired
within its cooldown window is skipped by the per-rule filter (and when every
rule is skipped, `apply` fires nothing and reports the tracking status);
once the elapsed time reaches the cooldown, the rule is again eligible
whenever its gesture and confidence gates pass. -/
theorem mapping_cooldown_debounce (eng : ActionEngine)
    (gestures : Side → Option GestureCandidate) (now : ℚ) (m : MappingRule) :
    ((now - eng.last_triggered (m.side.getD Side.RIGHT, m.gesture, m.action) <
        m.cooldown_s.getD eng.dynamic_cooldown) →
      ruleCandidate eng gestures now m = none)
    ∧ ((m.cooldown_s.getD eng.dynamic_cooldown ≤
        now - eng.last_triggered (m.side.getD Side.RIGHT, m.gesture, m.action)) →
      ∀ cand, gestures (m.side.getD Side.RIGHT) = some cand →
        m.gesture = some cand.name →
        m.min_confidence.getD (80/100) ≤ cand.confidence →
        ruleCandidate eng gestures now m =
          some ⟨m.priority.getD 0, cand.confidence,
            (m.side.getD Side.RIGHT, m.gesture, m.action),
            m.side.getD Side.RIGHT, cand, m.action⟩)
    ∧ (eng.mappings ≠ [] → eng.actions ≠ [] →
      (∀ m' ∈ eng.mappings, ruleCandidate eng gestures now m' = none) →
      (apply eng gestures now).2.1 = ApplyResult.trackingProfile
        ∧ (apply eng gestures now).2.2 = ([] : List Effect)) := by
  refine ⟨?_, ?_, ?_⟩
  · intro hcd
    cases hg : gestures (m.side.getD Side.RIGHT) with
    | none => simp [ruleCandidate, hg]
    | some cand =>
        simp only [ruleCandidate, hg]
        by_cases hskip : some cand.name ≠ m.gesture ∨
            cand.confidence < m.min_confidence.getD (80/100)
        · rw [if_pos hskip]
        · rw [if_neg hskip, if_pos hcd]
  · intro hcd cand hg hname hconf
    simp only [ruleCandidate, hg]
    rw [if_neg (by push_neg; exact ⟨hname.symm, hconf⟩), if_neg (not_lt.mpr hcd)]
  · intro hne ha hall
    have hcands : eng.mappings.filterMap (ruleCandidate eng gestures now) = [] :=
      List.filterMap_eq_nil_iff.mpr hall
    constructor <;>
      simp [apply, if_pos (And.intro hne ha), hcands, List.mergeSort_nil]

/-- Witness for C5: the mapping key last fired at `t = 0` with a 0.30 s
cooldown; a repeat at `t = 0.10` is suppressed (no rule fires, tracking
status) and at `t = 0.31` the rule is eligible again. -/
theorem mapping_cooldown_debounce_witness :
    ((1:ℚ)/10 - engCooldown.last_triggered (Side.RIGHT, some "PINCH", some "act_k") < 3/10)
    ∧ (ruleCandidate engCooldown gesturesPinch (1/10) ruleCooldown = none)
    ∧ ((apply engCooldown gesturesPinch (1/10)).2.1 = ApplyResult.trackingProfile)
    ∧ ((3:ℚ)/10 ≤ 31/100 - engCooldown.last_triggered (Side.RIGHT, some "PINCH", some "act_k"))
    ∧ (ruleCandidate engCooldown gesturesPinch (31/100) ruleCooldown = some eligCooldown) := by
  have h1 := mapping_cooldown_debounce engCooldown gesturesPinch (1/10) ruleCooldown
  have h2 := mapping_cooldown_debounce engCooldown gesturesPinch (31/100) ruleCooldown
  refine ⟨by with_unfolding_all decide, h1.1 (by with_unfolding_all decide),
    ?_, by with_unfolding_all decide, ?_⟩
  · refine (h1.2.2 (by with_unfolding_all decide) (by with_unfolding_all decide) ?_).1
    intro m' hm'
    rw [show engCooldown.mappings = [ruleCooldown] from rfl] at hm'
    rw [List.mem_singleton.mp hm']
    exact h1.1 (by with_unfolding_all decide)
  · exact h2.2.1 (by with_unfolding_all decide) ⟨"PINCH", 9/10, "STATIC"⟩
      (by with_unfolding_all decide) (by with_unfolding_all decide)
      (by with_unfolding_all decide)

/-! ## Claim C10 -/

/-- C10.  A winning rule whose action id has no entry in the loaded actions
table (or whose entry carries an unrecognized type tag) still counts as
fired: the execution step emits no effect, yet the debounce timestamp for
the rule's mapping key is stamped with the current time and the returned
trace reports the side, gesture, confidence and action id as dispatched. -/
theorem unmapped_action_silent_noop (eng : ActionEngine)
    (gestures : Side → Option GestureCandidate) (now : ℚ)
    (top : EligibleRule) (rest : List EligibleRule)
    (hm : eng.mappings ≠ []) (ha : eng.actions ≠ [])
    (hsort : (eng.mappings.filterMap (ruleCandidate eng gestures now)).mergeSort ruleLe =
      top :: rest)
    (hmiss : top.actionId.bind (fun a => eng.actions.lookup a) = none ∨
      ∃ tag, top.actionId.bind (fun a => eng.actions.lookup a) =
        some (ActionSpec.other tag)) :
    ((apply eng gestures now).2.2 = ([] : List Effect))
    ∧ ((apply eng gestures now).2.1 =
        ApplyResult.dispatched top.side top.cand.name top.cand.confidence top.actionId)
    ∧ ((apply eng gestures now).1.last_triggered top.mappingKey = now) := by
  have hexec : _execute_action eng.actions top.actionId = [] := by
    rcases hmiss with h | ⟨tag, h⟩
    · simp [_execute_action, h]
    · simp [_execute_action, h]
  refine ⟨?_, ?_, ?_⟩
  · simp only [apply, if_pos (And.intro hm ha), hsort, hexec]
  · simp only [apply, if_pos (And.intro hm ha), hsort]
  · simp only [apply, if_pos (And.intro hm ha), hsort]
    simp

set_option maxRecDepth 8000 in
/-- Witness for C10: a single eligible rule whose action id `"ghost"` is
absent from the (non-empty) actions table — no effect is emitted, the trace
reports the dispatch, and the debounce key is stamped. -/
theorem unmapped_action_silent_noop_witness :
    (engGhost.mappings ≠ []) ∧ (engGhost.actions ≠ [])
    ∧ (eligGhost.actionId.bind (fun a => engGhost.actions.lookup a) = none)
    ∧ ((apply engGhost gesturesPinch 1).2.2 = ([] : List Effect))
    ∧ ((apply engGhost gesturesPinch 1).2.1 =
        ApplyResult.dispatched eligGhost.side eligGhost.cand.name eligGhost.cand.confidence
          eligGhost.actionId)
    ∧ ((apply engGhost gesturesPinch 1).1.last_triggered eligGhost.mappingKey = 1) := by
  have h := unmapped_action_silent_noop engGhost gesturesPinch 1 eligGhost []
    (by with_unfolding_all decide) (by with_unfolding_all decide)
    (by
      rw [show engGhost.mappings.filterMap (ruleCandidate engGhost gesturesPinch 1) =
        [eligGhost] from by with_unfolding_all decide]
      exact List.mergeSort_singleton _)
    (Or.inl (by with_unfolding_all decide))
  exact ⟨by with_unfolding_all decide, by with_unfolding_all decide,
    by with_unfolding_all decide, h.1, h.2.1, h.2.2⟩

end AirController
